import Mathlib

/-!
Shallow embedding of `src/device.rs` of the `escposify` crate: the three
sink adapters `Usb`, `Network` and `File<W>`, translated from the Rust
source.  External collaborators (the `rusb` USB access library, the OS
socket stack and the OS filesystem) are modelled as explicit environment
data: each fallible primitive the source calls becomes a field or a
function parameter giving its outcome, and the side effects the source
performs on the USB device are recorded as an explicit action trace.
Byte buffers are `List Nat`, `u16`/`u8` identifiers are `Nat` (no
arithmetic is performed on them, so no overflow is at stake), and
`std::time::Duration` is a `Nat`.
-/

set_option autoImplicit false

namespace Escposify

/-- Model of `rusb::Error` (only the variants the claims mention are
distinguished; `other` stands for every remaining variant). -/
inductive RusbError where
  | NotFound
  | Busy
  | Access
  | NoDevice
  | TimedOut
  | other
  deriving DecidableEq, Repr

/-- Model of `std::io::Error`.  `ofRusb e` is the result of
`io::Error::new(io::ErrorKind::Other, e)` as built in `Usb::write`;
`os code` models any other OS-level I/O error. -/
inductive IoError where
  | ofRusb (e : RusbError)
  | os (code : Nat)
  deriving DecidableEq, Repr

/-- Outcome of a Rust computation that may panic (an `unwrap` on `Err`),
return early with an error (`?` / `ok_or`), or succeed. -/
inductive PResult (ε α : Type) where
  | panicked : PResult ε α
  | error (e : ε) : PResult ε α
  | ok (a : α) : PResult ε α
  deriving DecidableEq, Repr

/-- Model of `rusb::DeviceDescriptor`: the two fields `Usb::new` reads. -/
structure DeviceDescriptor where
  vendor_id : Nat
  product_id : Nat
  deriving DecidableEq, Repr

/-- Environment model of one enumerated USB device: the outcome of each
`rusb` primitive `Usb::new` may invoke on it.  `descriptor = none` models
`device_descriptor()` returning `Err` (which the source `unwrap`s). -/
structure UsbDevice where
  descriptor : Option DeviceDescriptor
  openResult : Except RusbError Unit
  detachResult : Except RusbError Unit
  claimResult : Nat → Except RusbError Unit

/-- Environment model of the `rusb` context: the outcome of
`rusb::Context::new()` and of `context.devices()`. -/
structure UsbWorld where
  contextResult : Except RusbError Unit
  devicesResult : Except RusbError (List UsbDevice)

/-- Side effects `Usb::new` performs on the bus, recorded by device index
in enumeration order. -/
inductive UsbAction where
  | openDevice (devIdx : Nat)
  | setAutoDetach (devIdx : Nat) (arg : Bool)
  | claimInterface (devIdx : Nat) (iface : Nat)
  deriving DecidableEq, Repr

/-- The `Usb` struct of the source.  `handle` is the index (in
enumeration order) of the device the open handle refers to. -/
structure Usb where
  _vendor_id : Nat
  _product_id : Nat
  _interface : Nat
  _endpoint_in_address : Nat
  _endpoint_out_address : Nat
  _timeout : Nat
  handle : Nat

/-- The `.iter().find(|device| { let desc = device.device_descriptor().unwrap();
desc.vendor_id() == vendor_id && desc.product_id() == product_id })` scan of
`Usb::new`, together with the `.ok_or(rusb::Error::NotFound)?` that follows
it.  `idx` is the enumeration index of the head of `devices`.  A failing
descriptor read is an `unwrap` on `Err`, hence `panicked`. -/
def findLoop (vendor_id product_id : Nat) :
    List UsbDevice → Nat → PResult RusbError (Nat × UsbDevice)
  | [], _ => .error .NotFound
  | d :: rest, idx =>
    match d.descriptor with
    | none => .panicked
    | some desc =>
      if desc.vendor_id = vendor_id ∧ desc.product_id = product_id then
        .ok (idx, d)
      else
        findLoop vendor_id product_id rest (idx + 1)

/-- `Usb::new` from the source, returning both its result and the trace of
actions performed on the bus.  `set_auto_detach_kernel_driver(true)` is
attempted and its result discarded (`unwrap_or_default()`), exactly as in
the source; `claim_interface` uses `?`, so its error is returned. -/
def Usb.new (w : UsbWorld)
    (vendor_id product_id interface endpoint_in_address endpoint_out_address
      timeout : Nat) : PResult RusbError Usb × List UsbAction :=
  match w.contextResult with
  | .error e => (.error e, [])
  | .ok _ =>
    match w.devicesResult with
    | .error e => (.error e, [])
    | .ok devices =>
      match findLoop vendor_id product_id devices 0 with
      | .panicked => (.panicked, [])
      | .error e => (.error e, [])
      | .ok (idx, device) =>
        match device.openResult with
        | .error e => (.error e, [.openDevice idx])
        | .ok _ =>
          match device.claimResult interface with
          | .error e =>
            (.error e,
              [.openDevice idx, .setAutoDetach idx true,
                .claimInterface idx interface])
          | .ok _ =>
            (.ok ⟨vendor_id, product_id, interface, endpoint_in_address,
                endpoint_out_address, timeout, idx⟩,
              [.openDevice idx, .setAutoDetach idx true,
                .claimInterface idx interface])

/-- `<Usb as io::Write>::write` from the source.  `write_bulk` is the
environment model of `rusb`'s bulk-transfer primitive on the open handle:
given the endpoint address, the buffer and the timeout it yields the byte
count actually transferred, or an error.  The source discards that count
(`Ok(_) => Ok(buf.len())`). -/
def Usb.write (write_bulk : Nat → List Nat → Nat → Except RusbError Nat)
    (u : Usb) (buf : List Nat) : Except IoError Nat :=
  match write_bulk u._endpoint_out_address buf u._timeout with
  | .ok _ => .ok buf.length
  | .error e => .error (.ofRusb e)

/-- `<Usb as io::Write>::flush` from the source: `Ok(())`, touching
nothing.  State passing makes the absence of mutation explicit. -/
def Usb.flush (u : Usb) : Except IoError Unit × Usb :=
  (.ok (), u)

/-- The `Network` struct of the source.  The open `net::TcpStream` is a
value of an arbitrary state type `σ`; its behaviour is supplied to the
methods as an explicit function, since the socket stack is an external
collaborator. -/
structure Network (σ : Type) where
  _host : String
  _port : Nat
  stream : σ

/-- `<Network as io::Write>::write` from the source:
`self.stream.write(buf)`.  `streamWrite` is the environment model of
`net::TcpStream::write`, returning the stream's result (a byte count or
an error) and the stream's new state. -/
def Network.write {σ : Type}
    (streamWrite : σ → List Nat → Except IoError Nat × σ)
    (n : Network σ) (buf : List Nat) : Except IoError Nat × Network σ :=
  ((streamWrite n.stream buf).1,
    ⟨n._host, n._port, (streamWrite n.stream buf).2⟩)

/-- `<Network as io::Write>::flush` from the source:
`self.stream.flush()`, with `streamFlush` the environment model of
`net::TcpStream::flush`. -/
def Network.flush {σ : Type}
    (streamFlush : σ → Except IoError Unit × σ)
    (n : Network σ) : Except IoError Unit × Network σ :=
  ((streamFlush n.stream).1, ⟨n._host, n._port, (streamFlush n.stream).2⟩)

/-- The `File<W>` struct of the source: a wrapper around any
`W: io::Write`. -/
structure File (W : Type) where
  fobj : W

/-- `File::from` of the source (`from` is reserved in Lean, hence the
name `wrap`, which is what spec §4.3 calls this constructor): adopt an
already-open writer without touching the filesystem. -/
def File.wrap {W : Type} (fobj : W) : File W :=
  ⟨fobj⟩

/-- `<File<W> as io::Write>::write` from the source:
`self.fobj.write(buf)`.  `writeFn` is the environment model of the
wrapped writer's `io::Write::write`; `W: io::Write` is arbitrary, so the
result — including any short count the writer reports — is whatever the
writer returns. -/
def File.write {W : Type}
    (writeFn : W → List Nat → Except IoError Nat × W)
    (f : File W) (buf : List Nat) : Except IoError Nat × File W :=
  ((writeFn f.fobj buf).1, ⟨(writeFn f.fobj buf).2⟩)

/-- `<File<W> as io::Write>::flush` from the source:
`self.fobj.flush()`. -/
def File.flush {W : Type}
    (flushFn : W → Except IoError Unit × W)
    (f : File W) : Except IoError Unit × File W :=
  ((flushFn f.fobj).1, ⟨(flushFn f.fobj).2⟩)

/-- Model of `std::fs::OpenOptions`: the flags relevant to open
semantics. -/
structure OpenOptions where
  write : Bool
  create : Bool
  append : Bool
  truncate : Bool
  deriving DecidableEq, Repr

/-- `OpenOptions::new()`: all flags off. -/
def OpenOptions.new : OpenOptions :=
  ⟨false, false, false, false⟩

/-- The options `File::from_path` builds in the source:
`OpenOptions::new().write(true).create(true)` — and nothing else, so
`append` and `truncate` stay off. -/
def fromPathOptions : OpenOptions :=
  { OpenOptions.new with write := true, create := true }

/-- Model of an open OS file: its byte content, the file cursor (a fresh
handle starts at offset 0), and whether the handle is in append mode. -/
structure FsFile where
  content : List Nat
  pos : Nat
  append : Bool
  deriving DecidableEq, Repr

/-- Environment model of the OS `open` call made by
`fs::OpenOptions::open`, on a path whose current content is `existing`
(`none` when no file exists there): with `create` a missing file comes
into existence empty, an existing file is emptied only under `truncate`,
and the cursor starts at offset 0. -/
def fsOpen (o : OpenOptions) (existing : Option (List Nat)) :
    Except IoError FsFile :=
  match existing with
  | none =>
    if o.create ∧ o.write then .ok ⟨[], 0, o.append⟩ else .error (.os 2)
  | some c =>
    .ok ⟨if o.truncate then [] else c, 0, o.append⟩

/-- Environment model of `fs::File`'s `io::Write::write`: in append mode
bytes go at the end; otherwise they overwrite at the cursor, leaving any
bytes beyond the written region unchanged.  (The model reports the full
count; C10 is about the untouched tail, not short writes.) -/
def fsFileWrite (f : FsFile) (buf : List Nat) :
    Except IoError Nat × FsFile :=
  if f.append then
    (.ok buf.length, ⟨f.content ++ buf, f.content.length + buf.length, true⟩)
  else
    (.ok buf.length,
      ⟨f.content.take f.pos ++ buf ++ f.content.drop (f.pos + buf.length),
        f.pos + buf.length, false⟩)

/-- `File::from_path` of the source, run against a path whose current
content is `existing`: build `fromPathOptions`, open, wrap the handle. -/
def File.from_path (existing : Option (List Nat)) :
    Except IoError (File FsFile) :=
  match fsOpen fromPathOptions existing with
  | .error e => .error e
  | .ok fobj => .ok ⟨fobj⟩

/-- Folding a sequence of buffers through `File::write` on an OS file
handle, keeping the final sink state. -/
def writeAll (f : File FsFile) (ws : List (List Nat)) : File FsFile :=
  ws.foldl (fun g b => (File.write fsFileWrite g b).2) f

/-- Model of `<Vec<u8> as io::Write>::write` (the in-memory buffer of
spec §8's scenario): append the whole buffer, report the full length. -/
def vecWrite (w : List Nat) (buf : List Nat) :
    Except IoError Nat × List Nat :=
  (.ok buf.length, w ++ buf)

/-- An `io::Write` implementation that accepts at most one byte per call
— a legal writer under Rust's `io::Write` contract, used to exhibit
short-write propagation. -/
def shortWrite (w : List Nat) (buf : List Nat) :
    Except IoError Nat × List Nat :=
  (.ok (min buf.length 1), w ++ buf.take 1)

/-- Concrete device whose descriptor reads fine but matches neither of
the identifiers 1/2 used in the concrete scenarios. -/
def exDevOther : UsbDevice :=
  ⟨some ⟨9, 9⟩, .ok (), .ok (), fun _ => .ok ()⟩

/-- Concrete device with descriptor vendor 1, product 2; every operation
on it succeeds. -/
def exDevMatch : UsbDevice :=
  ⟨some ⟨1, 2⟩, .ok (), .ok (), fun _ => .ok ()⟩

/-- A second, distinct concrete device also matching vendor 1,
product 2 (its claim outcome differs, so choosing it is observable). -/
def exDevMatchLater : UsbDevice :=
  ⟨some ⟨1, 2⟩, .ok (), .ok (), fun _ => .error .Busy⟩

/-- Concrete device whose `device_descriptor()` call fails. -/
def exDevBadDesc : UsbDevice :=
  ⟨none, .ok (), .ok (), fun _ => .ok ()⟩

/-- Concrete device matching vendor 1, product 2 whose kernel-driver
auto-detach request fails; open and claim succeed. -/
def exDevDetachFails : UsbDevice :=
  ⟨some ⟨1, 2⟩, .ok (), .error .other, fun _ => .ok ()⟩

/-- World holding one enumerated device that matches nothing asked for
in the scenarios. -/
def exWorldNoMatch : UsbWorld :=
  ⟨.ok (), .ok [exDevOther]⟩

/-- World where the devices at enumeration indices 1 and 2 both match
vendor 1, product 2; index 0 does not. -/
def exWorldTwoMatches : UsbWorld :=
  ⟨.ok (), .ok [exDevOther, exDevMatch, exDevMatchLater]⟩

/-- World whose single enumerated device has an unreadable
descriptor. -/
def exWorldBadDesc : UsbWorld :=
  ⟨.ok (), .ok [exDevBadDesc]⟩

/-- World whose single enumerated device matches vendor 1, product 2 and
whose auto-detach request fails. -/
def exWorldDetachFails : UsbWorld :=
  ⟨.ok (), .ok [exDevDetachFails]⟩

/-! ## Helper lemmas about the enumeration scan -/

/-- If every device of `ds` has a readable descriptor matching neither
identifier, the scan reports `NotFound`, from any starting index. -/
theorem findLoop_notFound (vid pid : Nat) (ds : List UsbDevice)
    (hall : ∀ d ∈ ds, ∃ desc, d.descriptor = some desc ∧
      ¬(desc.vendor_id = vid ∧ desc.product_id = pid)) :
    ∀ idx, findLoop vid pid ds idx = .error .NotFound := by
  induction ds with
  | nil => intro idx; rfl
  | cons d rest ih =>
    intro idx
    obtain ⟨desc, hdesc, hnm⟩ := hall d (List.mem_cons_self d rest)
    have hstep : findLoop vid pid (d :: rest) idx =
        findLoop vid pid rest (idx + 1) := by
      simp only [findLoop, hdesc]
      rw [if_neg hnm]
    rw [hstep]
    exact ih (fun e he => hall e (List.mem_cons_of_mem d he)) (idx + 1)

/-- If the first `i` devices all have readable, non-matching
descriptors, the scan proceeds past them. -/
theorem findLoop_drop (vid pid : Nat) (ds : List UsbDevice) :
    ∀ (i idx : Nat),
      (∀ j, j < i → ∃ dj descj, ds.get? j = some dj ∧
        dj.descriptor = some descj ∧
        ¬(descj.vendor_id = vid ∧ descj.product_id = pid)) →
      i ≤ ds.length →
      findLoop vid pid ds idx = findLoop vid pid (ds.drop i) (idx + i) := by
  induction ds with
  | nil =>
    intro i idx _ hle
    have hi0 : i = 0 := Nat.le_zero.mp hle
    subst hi0
    rfl
  | cons d rest ih =>
    intro i idx hbef hle
    cases i with
    | zero => rfl
    | succ i =>
      obtain ⟨d0, desc0, hget, hdesc, hnm⟩ := hbef 0 (Nat.succ_pos i)
      have hd0 : d = d0 := by simpa using hget
      subst hd0
      have hstep : findLoop vid pid (d :: rest) idx =
          findLoop vid pid rest (idx + 1) := by
        simp only [findLoop, hdesc]
        rw [if_neg hnm]
      have hbef' : ∀ j, j < i → ∃ dj descj, rest.get? j = some dj ∧
          dj.descriptor = some descj ∧
          ¬(descj.vendor_id = vid ∧ descj.product_id = pid) := by
        intro j hj
        obtain ⟨dj, descj, h1, h2, h3⟩ := hbef (j + 1) (Nat.succ_lt_succ hj)
        exact ⟨dj, descj, by simpa using h1, h2, h3⟩
      have hrec := ih i (idx + 1) hbef' (Nat.le_of_succ_le_succ hle)
      have harith : idx + 1 + i = idx + (i + 1) := by omega
      rw [hstep, hrec, harith]
      rfl

/-! ## Claim theorems -/

/-- C3: when every enumerated device has a readable descriptor and none
matches the requested vendor/product pair, `Usb::new` returns the
`NotFound` error, and its action trace is empty — no device is opened,
no auto-detach is requested and no interface claim is attempted. -/
theorem usbNew_noMatch_notFound_no_effects (w : UsbWorld)
    (ds : List UsbDevice)
    (vendor_id product_id interface endpoint_in_address
      endpoint_out_address timeout : Nat)
    (hctx : w.contextResult = .ok ())
    (hdev : w.devicesResult = .ok ds)
    (hall : ∀ d ∈ ds, ∃ desc, d.descriptor = some desc ∧
      ¬(desc.vendor_id = vendor_id ∧ desc.product_id = product_id)) :
    Usb.new w vendor_id product_id interface endpoint_in_address
        endpoint_out_address timeout = (.error .NotFound, []) := by
  simp only [Usb.new, hctx, hdev,
    findLoop_notFound vendor_id product_id ds hall 0]

/-- Witness for C3 on a concrete world: one enumerated device with
descriptor 9/9, searched for 1/2. -/
theorem usbNew_noMatch_notFound_no_effects_witness :
    Usb.new exWorldNoMatch 1 2 0 129 1 1000 = (.error .NotFound, []) := by
  apply usbNew_noMatch_notFound_no_effects exWorldNoMatch [exDevOther]
  · rfl
  · rfl
  · intro d hd
    rw [List.mem_singleton.mp hd]
    exact ⟨⟨9, 9⟩, rfl, by decide⟩

/-- C9: if enumeration reaches a device whose `device_descriptor()` call
fails (every earlier device having a readable, non-matching descriptor),
`Usb::new` panics — the `unwrap` aborts instead of returning an `Err`. -/
theorem usbNew_descriptor_failure_panics (w : UsbWorld)
    (ds : List UsbDevice) (i : Nat) (d : UsbDevice)
    (vendor_id product_id interface endpoint_in_address
      endpoint_out_address timeout : Nat)
    (hctx : w.contextResult = .ok ())
    (hdev : w.devicesResult = .ok ds)
    (hi : ds.get? i = some d)
    (hbad : d.descriptor = none)
    (hbefore : ∀ j, j < i → ∃ dj descj, ds.get? j = some dj ∧
      dj.descriptor = some descj ∧
      ¬(descj.vendor_id = vendor_id ∧ descj.product_id = product_id)) :
    Usb.new w vendor_id product_id interface endpoint_in_address
        endpoint_out_address timeout = (.panicked, []) := by
  obtain ⟨hlt, hget⟩ := List.get?_eq_some.mp hi
  have hdrop := findLoop_drop vendor_id product_id ds i 0 hbefore
    (Nat.le_of_lt hlt)
  have hcons : ds.drop i = d :: ds.drop (i + 1) := by
    rw [List.drop_eq_getElem_cons hlt]
    rw [List.get_eq_getElem] at hget
    rw [hget]
  rw [hcons] at hdrop
  have hpanic : findLoop vendor_id product_id (d :: ds.drop (i + 1)) (0 + i)
      = .panicked := by
    simp only [findLoop, hbad]
  simp only [Usb.new, hctx, hdev, hdrop, hpanic]

/-- Witness for C9 on a concrete world whose single device has an
unreadable descriptor. -/
theorem usbNew_descriptor_failure_panics_witness :
    Usb.new exWorldBadDesc 1 2 0 129 1 1000 = (.panicked, []) := by
  apply usbNew_descriptor_failure_panics exWorldBadDesc [exDevBadDesc] 0
    exDevBadDesc
  · rfl
  · rfl
  · rfl
  · rfl
  · intro j hj
    exact absurd hj (Nat.not_lt_zero j)

/-- C5: the scan of `Usb::new` selects the device at the first
enumeration index whose descriptor matches both identifiers — every
earlier device is readable and non-matching — and that device is the one
opened (the first recorded action opens exactly index `i`), with no
sorting or further disambiguation. -/
theorem usbNew_selects_first_match (w : UsbWorld)
    (ds : List UsbDevice) (i : Nat) (d : UsbDevice)
    (desc : DeviceDescriptor)
    (vendor_id product_id interface endpoint_in_address
      endpoint_out_address timeout : Nat)
    (hctx : w.contextResult = .ok ())
    (hdev : w.devicesResult = .ok ds)
    (hi : ds.get? i = some d)
    (hd : d.descriptor = some desc)
    (hm : desc.vendor_id = vendor_id ∧ desc.product_id = product_id)
    (hbefore : ∀ j, j < i → ∃ dj descj, ds.get? j = some dj ∧
      dj.descriptor = some descj ∧
      ¬(descj.vendor_id = vendor_id ∧ descj.product_id = product_id)) :
    findLoop vendor_id product_id ds 0 = .ok (i, d) ∧
    (Usb.new w vendor_id product_id interface endpoint_in_address
        endpoint_out_address timeout).2.head? = some (.openDevice i) := by
  obtain ⟨hlt, hget⟩ := List.get?_eq_some.mp hi
  have hdrop := findLoop_drop vendor_id product_id ds i 0 hbefore
    (Nat.le_of_lt hlt)
  have hcons : ds.drop i = d :: ds.drop (i + 1) := by
    rw [List.drop_eq_getElem_cons hlt]
    rw [List.get_eq_getElem] at hget
    rw [hget]
  rw [hcons] at hdrop
  have hfound : findLoop vendor_id product_id ds 0 = .ok (i, d) := by
    rw [hdrop]
    simp only [findLoop, hd]
    rw [if_pos hm]
    rw [Nat.zero_add]
  refine ⟨hfound, ?_⟩
  simp only [Usb.new, hctx, hdev, hfound]
  cases hop : d.openResult with
  | error e => rfl
  | ok u =>
    cases hcl : d.claimResult interface with
    | error e => rfl
    | ok u => rfl

/-- Witness for C5 on a concrete world where enumeration indices 1 and 2
both match vendor 1, product 2: index 1 is selected and opened. -/
theorem usbNew_selects_first_match_witness :
    findLoop 1 2 [exDevOther, exDevMatch, exDevMatchLater] 0 =
      .ok (1, exDevMatch) ∧
    (Usb.new exWorldTwoMatches 1 2 0 129 1 1000).2.head? =
      some (.openDevice 1) := by
  apply usbNew_selects_first_match exWorldTwoMatches
    [exDevOther, exDevMatch, exDevMatchLater] 1 exDevMatch ⟨1, 2⟩
  · rfl
  · rfl
  · rfl
  · rfl
  · exact ⟨rfl, rfl⟩
  · intro j hj
    have hj0 : j = 0 := Nat.lt_one_iff.mp hj
    subst hj0
    exact ⟨exDevOther, ⟨9, 9⟩, rfl, rfl, by decide⟩

/-- C4: once the scan has found its device and `open` has succeeded, a
failing kernel-driver auto-detach request (`hdetach`) is ignored — it is
still attempted, as the trace records, but construction succeeds
whenever the interface claim succeeds — while a failing
`claim_interface` is propagated to the caller as the construction
error. -/
theorem usbNew_detach_ignored_claim_propagated (w : UsbWorld)
    (ds : List UsbDevice) (i : Nat) (d : UsbDevice) (ed : RusbError)
    (vendor_id product_id interface endpoint_in_address
      endpoint_out_address timeout : Nat)
    (hctx : w.contextResult = .ok ())
    (hdev : w.devicesResult = .ok ds)
    (hfind : findLoop vendor_id product_id ds 0 = .ok (i, d))
    (hopen : d.openResult = .ok ())
    (hdetach : d.detachResult = .error ed) :
    (d.claimResult interface = .ok () →
      Usb.new w vendor_id product_id interface endpoint_in_address
          endpoint_out_address timeout =
        (.ok ⟨vendor_id, product_id, interface, endpoint_in_address,
            endpoint_out_address, timeout, i⟩,
          [.openDevice i, .setAutoDetach i true,
            .claimInterface i interface])) ∧
    (∀ e, d.claimResult interface = .error e →
      Usb.new w vendor_id product_id interface endpoint_in_address
          endpoint_out_address timeout =
        (.error e,
          [.openDevice i, .setAutoDetach i true,
            .claimInterface i interface])) := by
  constructor
  · intro hclaim
    simp only [Usb.new, hctx, hdev, hfind, hopen, hclaim]
  · intro e hclaim
    simp only [Usb.new, hctx, hdev, hfind, hopen, hclaim]

/-- Witness for C4 on a concrete world whose matching device rejects the
auto-detach request: construction still succeeds. -/
theorem usbNew_detach_ignored_claim_propagated_witness :
    Usb.new exWorldDetachFails 1 2 0 129 1 1000 =
      (.ok ⟨1, 2, 0, 129, 1, 1000, 0⟩,
        [.openDevice 0, .setAutoDetach 0 true, .claimInterface 0 0]) :=
  (usbNew_detach_ignored_claim_propagated exWorldDetachFails
    [exDevDetachFails] 0 exDevDetachFails .other 1 2 0 129 1 1000
    rfl rfl rfl rfl rfl).1 rfl

/-- C1: whenever the bulk transfer on the outbound endpoint succeeds —
reporting any transferred count `n` whatsoever, including one smaller
than the buffer — `Usb::write` returns `Ok` of the full buffer
length. -/
theorem usbWrite_reports_full_length
    (write_bulk : Nat → List Nat → Nat → Except RusbError Nat)
    (u : Usb) (buf : List Nat) (n : Nat)
    (h : write_bulk u._endpoint_out_address buf u._timeout = .ok n) :
    Usb.write write_bulk u buf = .ok buf.length := by
  simp only [Usb.write, h]

/-- Witness for C1: a transfer that reports 0 bytes written still makes
`Usb::write` report all 3. -/
theorem usbWrite_reports_full_length_witness :
    Usb.write (fun _ _ _ => (.ok 0 : Except RusbError Nat))
      ⟨1, 2, 0, 129, 1, 1000, 0⟩ [7, 8, 9] = .ok 3 :=
  usbWrite_reports_full_length (fun _ _ _ => .ok 0)
    ⟨1, 2, 0, 129, 1, 1000, 0⟩ [7, 8, 9] 0 rfl

/-- C6: `Usb::flush` returns `Ok(())` and leaves the adapter — hence the
underlying handle it owns — unchanged, whatever state it is in. -/
theorem usbFlush_noop_never_fails (u : Usb) :
    Usb.flush u = (.ok (), u) :=
  rfl

/-- C7: `Network::write` is exactly the stream's own write — the
returned count or error and the stream's new state propagate unchanged,
and the host/port fields are untouched.  In particular (last conjunct) a
stream that accepts only 1 of 3 bytes has its short count `Ok(1)`
surfaced as-is: no all-or-nothing normalization is applied. -/
theorem networkWrite_delegates_to_stream (σ : Type)
    (streamWrite : σ → List Nat → Except IoError Nat × σ)
    (n : Network σ) (buf : List Nat) :
    (Network.write streamWrite n buf).1 = (streamWrite n.stream buf).1 ∧
    (Network.write streamWrite n buf).2.stream =
      (streamWrite n.stream buf).2 ∧
    (Network.write streamWrite n buf).2._host = n._host ∧
    (Network.write streamWrite n buf).2._port = n._port ∧
    (Network.write shortWrite ⟨"printer", 9100, ([] : List Nat)⟩
      [1, 2, 3]).1 = .ok 1 :=
  ⟨rfl, rfl, rfl, rfl, rfl⟩

/-- Counterexample to C2 as stated: a `File` sink wrapping a writer that
(as Rust's `io::Write` contract permits) accepts only one byte per call
returns `Ok(1)` on the 2-byte buffer `[1, 2]` — a partial count strictly
between 0 and the buffer length. -/
theorem fileWrite_short_write_counterexample :
    (File.write shortWrite (File.wrap ([] : List Nat)) [1, 2]).1 =
      .ok 1 ∧
    0 < 1 ∧ 1 < ([1, 2] : List Nat).length :=
  ⟨rfl, by decide, by decide⟩

/-- C2 amended: `Usb::write` indeed returns `Ok` of the full buffer
length or an error, never a partial count; but `File::write` merely
returns whatever the wrapped writer returns, so it reports a partial
count exactly when the writer does — the all-or-nothing contract holds
for the USB sink only, not for the file sink. -/
theorem write_all_or_error_amended
    (write_bulk : Nat → List Nat → Nat → Except RusbError Nat)
    (u : Usb) (buf : List Nat) (W : Type)
    (writeFn : W → List Nat → Except IoError Nat × W)
    (f : File W) (b : List Nat) :
    ((∃ e, Usb.write write_bulk u buf = .error e) ∨
      Usb.write write_bulk u buf = .ok buf.length) ∧
    (File.write writeFn f b).1 = (writeFn f.fobj b).1 := by
  constructor
  · cases h : write_bulk u._endpoint_out_address buf u._timeout with
    | error e => exact .inl ⟨.ofRusb e, by simp only [Usb.write, h]⟩
    | ok m => exact .inr (by simp only [Usb.write, h])
  · rfl

/-- C8: wrapping an in-memory buffer (`Vec<u8>` semantics) via
`File::from`, writing `[1, 2, 3]` and then `[4, 5]` each succeed in
full, and the buffer afterwards equals `[1, 2, 3, 4, 5]`: successive
writes append in order, and no byte is added or dropped. -/
theorem fileWrap_vec_appends_in_order :
    (File.write vecWrite (File.wrap ([] : List Nat)) [1, 2, 3]).1 =
      .ok 3 ∧
    (File.write vecWrite
      ((File.write vecWrite (File.wrap ([] : List Nat)) [1, 2, 3]).2)
      [4, 5]).1 = .ok 2 ∧
    ((File.write vecWrite
      ((File.write vecWrite (File.wrap ([] : List Nat)) [1, 2, 3]).2)
      [4, 5]).2).fobj = [1, 2, 3, 4, 5] :=
  ⟨rfl, rfl, rfl⟩

/-- One `File::write` on a handle opened by `from_path` over prior
content `c`, after the writes `A` have already landed: the buffer
overwrites at the cursor and the tail of `c` beyond it survives. -/
theorem fileWrite_overwrites_at_cursor (c A b : List Nat) :
    File.write fsFileWrite ⟨⟨A ++ c.drop A.length, A.length, false⟩⟩ b =
      (.ok b.length,
        ⟨⟨(A ++ b) ++ c.drop (A ++ b).length, (A ++ b).length,
          false⟩⟩) := by
  have h1 : (A ++ c.drop A.length).take A.length = A := List.take_left A _
  have h2 : (A ++ c.drop A.length).drop (A.length + b.length) =
      c.drop (A.length + b.length) := by
    rw [List.drop_append b.length, List.drop_drop, Nat.add_comm]
  simp only [File.write, fsFileWrite, Bool.false_eq_true, if_false, h1, h2,
    List.length_append, List.append_assoc]

/-- Invariant of a run of writes on a `from_path` handle over prior
content `c`: after the buffers of `ws` (with `A` already written), the
file holds the written bytes followed by the untouched tail of `c`. -/
theorem writeAll_overwrite_inv (c : List Nat) (ws : List (List Nat)) :
    ∀ A : List Nat,
      writeAll ⟨⟨A ++ c.drop A.length, A.length, false⟩⟩ ws =
        ⟨⟨(A ++ ws.flatten) ++ c.drop (A ++ ws.flatten).length,
          (A ++ ws.flatten).length, false⟩⟩ := by
  induction ws with
  | nil =>
    intro A
    simp [writeAll]
  | cons b ws ih =>
    intro A
    show writeAll
        ((File.write fsFileWrite
          ⟨⟨A ++ c.drop A.length, A.length, false⟩⟩ b).2) ws = _
    rw [fileWrite_overwrites_at_cursor c A b]
    rw [ih (A ++ b)]
    simp [List.append_assoc]

/-- C10: `File::from_path` opens with `write` and `create` set but
neither `append` nor `truncate`, so over a pre-existing file content `c`
it yields a handle on the intact content with the cursor at 0; after any
sequence of writes `ws` totalling fewer bytes than `c`, the file holds
the written bytes followed by the unchanged remainder of `c` — its
length is still that of `c`, so reading it back yields strictly more
than what was written. -/
theorem fromPath_preserves_existing_tail (c : List Nat)
    (ws : List (List Nat)) (h : ws.flatten.length < c.length) :
    fromPathOptions.write = true ∧ fromPathOptions.create = true ∧
    fromPathOptions.append = false ∧ fromPathOptions.truncate = false ∧
    File.from_path (some c) = .ok ⟨⟨c, 0, false⟩⟩ ∧
    (writeAll ⟨⟨c, 0, false⟩⟩ ws).fobj.content =
      ws.flatten ++ c.drop ws.flatten.length ∧
    (writeAll ⟨⟨c, 0, false⟩⟩ ws).fobj.content.length = c.length ∧
    (writeAll ⟨⟨c, 0, false⟩⟩ ws).fobj.content ≠ ws.flatten := by
  have hinv := writeAll_overwrite_inv c ws []
  simp only [List.nil_append, List.length_nil, List.drop_zero] at hinv
  have hlen : (ws.flatten ++ c.drop ws.flatten.length).length = c.length := by
    simp only [List.length_append, List.length_drop]
    omega
  refine ⟨rfl, rfl, rfl, rfl, rfl, ?_, ?_, ?_⟩
  · rw [hinv]
  · rw [hinv]
    exact hlen
  · rw [hinv]
    intro heq
    have := congrArg List.length heq
    rw [hlen] at this
    omega

/-- Witness for C10: a 4-byte file, two 1-byte writes; the last two of
the original bytes survive and the file still reads back 4 bytes. -/
theorem fromPath_preserves_existing_tail_witness :
    ([[1], [2]] : List (List Nat)).flatten.length <
      ([9, 9, 9, 9] : List Nat).length ∧
    (fromPathOptions.write = true ∧ fromPathOptions.create = true ∧
      fromPathOptions.append = false ∧ fromPathOptions.truncate = false ∧
      File.from_path (some [9, 9, 9, 9]) = .ok ⟨⟨[9, 9, 9, 9], 0, false⟩⟩ ∧
      (writeAll ⟨⟨[9, 9, 9, 9], 0, false⟩⟩ [[1], [2]]).fobj.content =
        ([[1], [2]] : List (List Nat)).flatten ++
          ([9, 9, 9, 9] : List Nat).drop
            ([[1], [2]] : List (List Nat)).flatten.length ∧
      (writeAll ⟨⟨[9, 9, 9, 9], 0, false⟩⟩ [[1], [2]]).fobj.content.length =
        ([9, 9, 9, 9] : List Nat).length ∧
      (writeAll ⟨⟨[9, 9, 9, 9], 0, false⟩⟩ [[1], [2]]).fobj.content ≠
        ([[1], [2]] : List (List Nat)).flatten) :=
  ⟨by decide, fromPath_preserves_existing_tail [9, 9, 9, 9] [[1], [2]]
    (by decide)⟩

end Escposify
